import Mathlib

/-!
Verification development for the Indic Recipe AI dataset collector
(`src/app.py`).  The file shallowly embeds the pure logic of the app:

* the field validator `validate_recipe_data`;
* the image store `save_image`, including a full executable model of the
  MD5 digest used for content-addressed filenames;
* the CSV-backed recipe repository (`load_existing_data`,
  `save_recipe_locally`) with its process-wide cache, modelled as explicit
  state passing over `StoreState`;
* the Hugging Face uploader `upload_to_huggingface`, modelled as a
  function from an environment (`UploadWorld`) to a result together with
  the trace of attempted file transmissions.

Theorems C1–C10 at the end of the file settle the specification claims.
-/

namespace RecipeApp

/-- Constant `DATA_FILE` from app.py. -/
def DATA_FILE : String := "recipes.csv"

/-- Constant `IMAGES_DIR` from app.py. -/
def IMAGES_DIR : String := "recipe_images"

/-! ## Python-style string helpers -/

/-- Python `str.strip()` on a list of characters: drop whitespace from both
ends. -/
def pyStripList (cs : List Char) : List Char :=
  ((cs.dropWhile Char.isWhitespace).reverse.dropWhile Char.isWhitespace).reverse

/-- Python `s.strip()` on a string. -/
def pyStrip (s : String) : String :=
  String.mk (pyStripList s.data)

/-- Python truthiness of an optional string: `None` and `""` are falsy. -/
def pyFalsy : Option String → Bool
  | none => true
  | some s => s == ""

/-- Characters kept by the sanitizer in `save_image`:
`c.isalnum() or c in (' ', '-', '_')`. -/
def pyIsKeptChar (c : Char) : Bool :=
  c.isAlphanum || c == ' ' || c == '-' || c == '_'

/-- Python `.replace(' ', '_')` (single-character pattern, so a map). -/
def pyReplaceSpace (cs : List Char) : List Char :=
  cs.map (fun c => if c == ' ' then '_' else c)

/-- Python `s.split('.')` on a character list, accumulator-style: `acc`
holds the current fragment reversed. -/
def splitDotAux : List Char → List Char → List (List Char)
  | acc, [] => [acc.reverse]
  | acc, c :: rest =>
    if c == '.' then acc.reverse :: splitDotAux [] rest
    else splitDotAux (c :: acc) rest

/-- Python `fname.split('.')[-1]`: the last dot-separated fragment (the
list produced by `split` is never empty). -/
def fileExtension (fname : String) : String :=
  String.mk ((splitDotAux [] fname.data).getLastD [])

/-! ## MD5 (hashlib.md5), executable model

The image store derives filenames from
`hashlib.md5(bytes).hexdigest()[:8]`.  Bytes are modelled as `Nat`s below
256; all 32-bit arithmetic is `Nat` arithmetic mod `2 ^ 32`. -/

/-- The 32-bit all-ones mask. -/
def mask32 : Nat := 4294967295

/-- 32-bit addition. -/
def add32 (x y : Nat) : Nat := (x + y) % 4294967296

/-- 32-bit complement (for `x < 2 ^ 32`). -/
def not32 (x : Nat) : Nat := mask32 ^^^ x

/-- 32-bit left rotation (for `x < 2 ^ 32`, `0 < s < 32`). -/
def rotl32 (x s : Nat) : Nat :=
  ((x <<< s) ||| (x >>> (32 - s))) &&& mask32

/-- The MD5 sine-derived round constants. -/
def md5K : List Nat :=
  [0xd76aa478, 0xe8c7b756, 0x242070db, 0xc1bdceee,
   0xf57c0faf, 0x4787c62a, 0xa8304613, 0xfd469501,
   0x698098d8, 0x8b44f7af, 0xffff5bb1, 0x895cd7be,
   0x6b901122, 0xfd987193, 0xa679438e, 0x49b40821,
   0xf61e2562, 0xc040b340, 0x265e5a51, 0xe9b6c7aa,
   0xd62f105d, 0x02441453, 0xd8a1e681, 0xe7d3fbc8,
   0x21e1cde6, 0xc33707d6, 0xf4d50d87, 0x455a14ed,
   0xa9e3e905, 0xfcefa3f8, 0x676f02d9, 0x8d2a4c8a,
   0xfffa3942, 0x8771f681, 0x6d9d6122, 0xfde5380c,
   0xa4beea44, 0x4bdecfa9, 0xf6bb4b60, 0xbebfbc70,
   0x289b7ec6, 0xeaa127fa, 0xd4ef3085, 0x04881d05,
   0xd9d4d039, 0xe6db99e5, 0x1fa27cf8, 0xc4ac5665,
   0xf4292244, 0x432aff97, 0xab9423a7, 0xfc93a039,
   0x655b59c3, 0x8f0ccc92, 0xffeff47d, 0x85845dd1,
   0x6fa87e4f, 0xfe2ce6e0, 0xa3014314, 0x4e0811a1,
   0xf7537e82, 0xbd3af235, 0x2ad7d2bb, 0xeb86d391]

/-- The MD5 per-round shift amounts. -/
def md5S : List Nat :=
  [7, 12, 17, 22, 7, 12, 17, 22, 7, 12, 17, 22, 7, 12, 17, 22,
   5, 9, 14, 20, 5, 9, 14, 20, 5, 9, 14, 20, 5, 9, 14, 20,
   4, 11, 16, 23, 4, 11, 16, 23, 4, 11, 16, 23, 4, 11, 16, 23,
   6, 10, 15, 21, 6, 10, 15, 21, 6, 10, 15, 21, 6, 10, 15, 21]

/-- Little-endian 32-bit word at word index `g` of a 64-byte block. -/
def wordAt (block : List Nat) (g : Nat) : Nat :=
  block.getD (4 * g) 0 + 256 * block.getD (4 * g + 1) 0 +
    65536 * block.getD (4 * g + 2) 0 + 16777216 * block.getD (4 * g + 3) 0

/-- One MD5 round operation on the register tuple `(a, b, c, d)`. -/
def md5step (block : List Nat) (st : Nat × Nat × Nat × Nat) (i : Nat) :
    Nat × Nat × Nat × Nat :=
  let a := st.1
  let b := st.2.1
  let c := st.2.2.1
  let d := st.2.2.2
  let f :=
    if i < 16 then (b &&& c) ||| (not32 b &&& d)
    else if i < 32 then (d &&& b) ||| (not32 d &&& c)
    else if i < 48 then b ^^^ c ^^^ d
    else c ^^^ (b ||| not32 d)
  let g :=
    if i < 16 then i
    else if i < 32 then (5 * i + 1) % 16
    else if i < 48 then (3 * i + 5) % 16
    else (7 * i) % 16
  let tmp := add32 a (add32 f (add32 (md5K.getD i 0) (wordAt block g)))
  (d, add32 b (rotl32 tmp (md5S.getD i 0)), b, c)

/-- Process one 64-byte block. -/
def md5block (st : Nat × Nat × Nat × Nat) (block : List Nat) :
    Nat × Nat × Nat × Nat :=
  let r := (List.range 64).foldl (md5step block) st
  (add32 st.1 r.1, add32 st.2.1 r.2.1, add32 st.2.2.1 r.2.2.1,
    add32 st.2.2.2 r.2.2.2)

/-- MD5 padding: a `0x80` byte, zeros to 56 mod 64, then the bit length as
eight little-endian bytes. -/
def md5pad (msg : List Nat) : List Nat :=
  msg ++ 128 :: List.replicate ((119 - msg.length % 64) % 64) 0 ++
    (List.range 8).map (fun i => ((msg.length * 8) >>> (8 * i)) &&& 255)

/-- Split a byte list into chunks of 64; `acc` holds the current chunk
reversed. -/
def chunks64Aux : List Nat → List Nat → List (List Nat)
  | acc, [] => if acc.isEmpty then [] else [acc.reverse]
  | acc, b :: rest =>
    if acc.length == 63 then (acc.reverse ++ [b]) :: chunks64Aux [] rest
    else chunks64Aux (b :: acc) rest

/-- The MD5 initial register values. -/
def md5init : Nat × Nat × Nat × Nat :=
  (0x67452301, 0xefcdab89, 0x98badcfe, 0x10325476)

/-- Full MD5: pad, then fold the block function over all 64-byte chunks. -/
def md5 (msg : List Nat) : Nat × Nat × Nat × Nat :=
  (chunks64Aux [] (md5pad msg)).foldl md5block md5init

/-- The four little-endian bytes of a 32-bit word. -/
def leBytes (x : Nat) : List Nat :=
  [x &&& 255, (x >>> 8) &&& 255, (x >>> 16) &&& 255, (x >>> 24) &&& 255]

/-- The 16-byte MD5 digest. -/
def md5bytes (msg : List Nat) : List Nat :=
  leBytes (md5 msg).1 ++ leBytes (md5 msg).2.1 ++
    leBytes (md5 msg).2.2.1 ++ leBytes (md5 msg).2.2.2

/-- Lowercase hex digit for `n < 16`. -/
def hexDigit (n : Nat) : Char :=
  if n < 10 then Char.ofNat (48 + n) else Char.ofNat (87 + n)

/-- Two lowercase hex characters per byte. -/
def bytesToHex : List Nat → List Char
  | [] => []
  | b :: bs => hexDigit (b / 16) :: hexDigit (b % 16) :: bytesToHex bs

/-- The 32 characters of `hashlib.md5(msg).hexdigest()`. -/
def md5hexChars (msg : List Nat) : List Char :=
  bytesToHex (md5bytes msg)

/-- `hashlib.md5(msg).hexdigest()` as a string. -/
def md5hexdigest (msg : List Nat) : String :=
  String.mk (md5hexChars msg)

/-! ## Image store (`save_image`) -/

/-- A Streamlit `UploadedFile`: `getvalue()` is the byte content,
`name` the original filename. -/
structure UploadedFile where
  content : List Nat
  name : String
deriving DecidableEq, Repr

/-- The first eight characters of `hashlib.md5(bytes).hexdigest()`
(`file_hash` in `save_image`). -/
def fileHash8 (bytes : List Nat) : String :=
  String.mk ((md5hexChars bytes).take 8)

/-- The sanitized recipe-name fragment (`safe_name` in `save_image`):
keep alphanumerics, spaces, hyphens and underscores, strip, then replace
spaces with underscores. -/
def safeName (recipe_name : String) : String :=
  String.mk (pyReplaceSpace (pyStripList (recipe_name.data.filter pyIsKeptChar)))

/-- The filename built by `save_image`:
`f"{safe_name}_{file_hash}.{extension}"`. -/
def imageFilename (image_file : UploadedFile) (recipe_name : String) : String :=
  safeName recipe_name ++ "_" ++ fileHash8 image_file.content ++ "." ++
    fileExtension image_file.name

/-- `save_image(image_file, recipe_name)`: returns the stored filename, or
`None` when no file was given.  The filesystem write targets
`os.path.join(IMAGES_DIR, filename)` and carries no further logic. -/
def save_image : Option UploadedFile → String → Option String
  | none, _ => none
  | some image_file, recipe_name => some (imageFilename image_file recipe_name)

/-! ## Validator (`validate_recipe_data`) -/

/-- Error message for a too-short recipe name. -/
def nameError : String := "Recipe name must be at least 3 characters long"

/-- Error message for too-short ingredients. -/
def ingredientsError : String := "Ingredients must be at least 10 characters long"

/-- Error message for too-short instructions. -/
def instructionsError : String := "Instructions must be at least 20 characters long"

/-- `validate_recipe_data(name, ingredients, instructions)`: each field is
checked independently and contributes its own message.  Absent input is
`none`. -/
def validate_recipe_data (name ingredients instructions : Option String) :
    List String :=
  (if pyFalsy name || decide ((pyStrip (name.getD "")).length < 3) then
    [nameError] else []) ++
  (if pyFalsy ingredients || decide ((pyStrip (ingredients.getD "")).length < 10) then
    [ingredientsError] else []) ++
  (if pyFalsy instructions || decide ((pyStrip (instructions.getD "")).length < 20) then
    [instructionsError] else [])

/-- The trimmed length of an optional string, with absent treated as
length 0 (the quantity the spec phrases its validation rules in). -/
def trimmedLen : Option String → Nat
  | none => 0
  | some s => (pyStrip s).length

/-! ## Recipe records and the local repository -/

/-- One row of the CSV store, with the exact fields assembled in the
`recipe_data` dict of app.py. -/
structure RecipeRecord where
  name : String
  language : String
  region : String
  ingredients : String
  instructions : String
  prep_time_minutes : Nat
  cook_time_minutes : Nat
  total_time_minutes : Nat
  servings : Nat
  difficulty : String
  image_filename : Option String
  date_added : String
deriving DecidableEq, Repr

/-- The raw form fields collected by the Streamlit form. -/
structure FormInput where
  recipe_name : String
  language : String
  region : String
  ingredients : String
  instructions : String
  prep_time : Nat
  cook_time : Nat
  servings : Nat
  difficulty : String
  image_file : Option UploadedFile
  date : String
deriving DecidableEq, Repr

/-- The `recipe_data` dict built on form submission (app.py lines
245–261): fields are stripped, `total_time_minutes := prep + cook`, and
`image_filename` comes from `save_image` when a file was attached. -/
def recipe_data (i : FormInput) : RecipeRecord :=
  { name := pyStrip i.recipe_name
    language := i.language
    region := if i.region == "" then "" else pyStrip i.region
    ingredients := pyStrip i.ingredients
    instructions := pyStrip i.instructions
    prep_time_minutes := i.prep_time
    cook_time_minutes := i.cook_time
    total_time_minutes := i.prep_time + i.cook_time
    servings := i.servings
    difficulty := i.difficulty
    image_filename :=
      if i.image_file.isSome then save_image i.image_file i.recipe_name else none
    date_added := i.date }

/-- Process-visible repository state: the backing CSV (`none` = the file
does not exist) and the `st.cache_data` cache of `load_existing_data`
(`none` = not populated). -/
structure StoreState where
  dataFile : Option (List RecipeRecord)
  cache : Option (List RecipeRecord)
deriving DecidableEq, Repr

/-- `load_existing_data()`: return the cached value if present; otherwise
read the CSV (an empty frame if the file is missing) and populate the
cache. -/
def load_existing_data (s : StoreState) : List RecipeRecord × StoreState :=
  match s.cache with
  | some v => (v, s)
  | none =>
    let v := s.dataFile.getD []
    (v, { s with cache := some v })

/-- `save_recipe_locally(recipe_data)`: read the CSV directly (not through
the cache), concatenate the new record as the last row, rewrite the file,
and clear the `load_existing_data` cache. -/
def save_recipe_locally (r : RecipeRecord) (s : StoreState) : StoreState :=
  let df :=
    match s.dataFile with
    | some rows => rows ++ [r]
    | none => [r]
  { dataFile := some df, cache := none }

/-- Fold `save_recipe_locally` over a list of records. -/
def appendAll (rs : List RecipeRecord) (s : StoreState) : StoreState :=
  rs.foldl (fun st r => save_recipe_locally r st) s

/-- The state before any record was saved: no CSV file, empty cache. -/
def initialState : StoreState :=
  { dataFile := none, cache := none }

/-! ## Uploader (`upload_to_huggingface`)

The uploader's effects are modelled by the trace of `api.upload_file`
calls it attempts, in order.  The Python function performs no local
filesystem writes, so the environment it runs in is returned unchanged. -/

/-- One `api.upload_file(...)` call. -/
structure Transmission where
  path_or_fileobj : String
  path_in_repo : String
  repo_id : String
deriving DecidableEq, Repr

/-- The environment `upload_to_huggingface` runs in: the backing CSV, the
image directory, the behaviour of `initialize_hf_api` on each token, and
an oracle giving the outcome of the k-th `upload_file` attempt (`some e` =
that call raises with message `e`). -/
structure UploadWorld where
  dataFile : Option (List RecipeRecord)
  imagesDirExists : Bool
  imageFiles : List String
  auth : String → Option String
  sendOutcome : Nat → Option String

/-- The sequence of `upload_file` calls the function will attempt when the
preconditions hold: the CSV first, then (if requested and present) every
image file under the `images/` prefix. -/
def plannedTransfers (repo_id : String) (include_images : Bool)
    (w : UploadWorld) : List Transmission :=
  { path_or_fileobj := DATA_FILE, path_in_repo := "recipes.csv",
    repo_id := repo_id } ::
    (if include_images && w.imagesDirExists then
      (if w.imageFiles.isEmpty then []
       else w.imageFiles.map (fun n =>
        { path_or_fileobj := IMAGES_DIR ++ "/" ++ n,
          path_in_repo := "images/" ++ n, repo_id := repo_id }))
     else [])

/-- Run the attempts in order: the k-th attempt either succeeds
(`outcome k = none`) or raises, which aborts the whole sequence.  Returns
the attempted calls and the first error, if any. -/
def runTransfers (outcome : Nat → Option String) :
    List Transmission → Nat → List Transmission × Option String
  | [], _ => ([], none)
  | t :: ts, k =>
    match outcome k with
    | some e => ([t], some e)
    | none =>
      let r := runTransfers outcome ts (k + 1)
      (t :: r.1, r.2)

/-- `upload_to_huggingface(repo_id, token, include_images)`: check the CSV
exists, initialize the API client, then attempt the transmissions inside a
try/except that converts the first failure into `(False, "Upload failed:
...")`.  Returns the result pair, the trace of attempted transmissions,
and the (unchanged) environment. -/
def upload_to_huggingface (repo_id token : String) (include_images : Bool)
    (w : UploadWorld) : (Bool × String) × List Transmission × UploadWorld :=
  if w.dataFile.isNone then
    ((false, "No local dataset found."), [], w)
  else
    match w.auth token with
    | some e => ((false, "Login failed: " ++ e), [], w)
    | none =>
      let r := runTransfers w.sendOutcome
        (plannedTransfers repo_id include_images w) 0
      match r.2 with
      | some e => ((false, "Upload failed: " ++ e), r.1, w)
      | none =>
        ((true, "Dataset uploaded successfully to: https://huggingface.co/datasets/"
            ++ repo_id), r.1, w)

/-! ## Repository lemmas -/

/-- Appending records to a state whose file holds `xs` (cache clear)
extends the file in order and leaves the cache clear. -/
theorem appendAll_some (rs : List RecipeRecord) (xs : List RecipeRecord) :
    appendAll rs ⟨some xs, none⟩ = ⟨some (xs ++ rs), none⟩ := by
  induction rs generalizing xs with
  | nil => simp [appendAll]
  | cons r rest ih =>
    have hstep : save_recipe_locally r ⟨some xs, none⟩ = ⟨some (xs ++ [r]), none⟩ := rfl
    calc appendAll (r :: rest) ⟨some xs, none⟩
        = appendAll rest (save_recipe_locally r ⟨some xs, none⟩) := rfl
      _ = appendAll rest ⟨some (xs ++ [r]), none⟩ := by rw [hstep]
      _ = ⟨some ((xs ++ [r]) ++ rest), none⟩ := ih (xs ++ [r])
      _ = ⟨some (xs ++ r :: rest), none⟩ := by simp

/-- C1: starting from a missing backing file, appending any sequence of
records built by `recipe_data` and then loading returns exactly those
records in insertion order, and every stored record's
`total_time_minutes` equals its `prep_time_minutes` plus its
`cook_time_minutes` as computed at append time. -/
theorem C1_append_load_roundtrip (inputs : List FormInput) :
    (load_existing_data (appendAll (inputs.map recipe_data) initialState)).1 =
      inputs.map recipe_data ∧
    ∀ r ∈ inputs.map recipe_data,
      r.total_time_minutes = r.prep_time_minutes + r.cook_time_minutes := by
  constructor
  · cases h : inputs.map recipe_data with
    | nil => simp [appendAll, initialState, load_existing_data]
    | cons a l =>
      have hfirst : appendAll (a :: l) initialState = appendAll l ⟨some [a], none⟩ := rfl
      rw [hfirst, appendAll_some]
      simp [load_existing_data]
  · intro r hr
    obtain ⟨i, _, rfl⟩ := List.mem_map.1 hr
    rfl

/-- C1 witness: a concrete one-record run. -/
theorem C1_append_load_roundtrip_witness :
    (load_existing_data (appendAll
        ([⟨"Dosa", "Tamil", "", "rice, urad dal, salt", "soak, grind, ferment, cook on tawa",
           20, 40, 4, "Easy", none, "2025-01-01 10:00:00"⟩].map recipe_data)
        initialState)).1 =
      [⟨"Dosa", "Tamil", "", "rice, urad dal, salt", "soak, grind, ferment, cook on tawa",
        20, 40, 4, "Easy", none, "2025-01-01 10:00:00"⟩].map recipe_data ∧
    (recipe_data ⟨"Dosa", "Tamil", "", "rice, urad dal, salt",
        "soak, grind, ferment, cook on tawa",
        20, 40, 4, "Easy", none, "2025-01-01 10:00:00"⟩).total_time_minutes =
      (recipe_data ⟨"Dosa", "Tamil", "", "rice, urad dal, salt",
        "soak, grind, ferment, cook on tawa",
        20, 40, 4, "Easy", none, "2025-01-01 10:00:00"⟩).prep_time_minutes +
      (recipe_data ⟨"Dosa", "Tamil", "", "rice, urad dal, salt",
        "soak, grind, ferment, cook on tawa",
        20, 40, 4, "Easy", none, "2025-01-01 10:00:00"⟩).cook_time_minutes :=
  ⟨(C1_append_load_roundtrip _).1,
   (C1_append_load_roundtrip _).2 _ (List.mem_map.2 ⟨_, List.mem_singleton.2 rfl, rfl⟩)⟩

/-- C9: after any successful append, the next load reflects the updated
file contents — the old rows followed by the new record as the last row —
whatever the previous cache held. -/
theorem C9_load_after_append (s : StoreState) (r : RecipeRecord) :
    (load_existing_data (save_recipe_locally r s)).1 = s.dataFile.getD [] ++ [r] ∧
    (load_existing_data (save_recipe_locally r s)).1.getLast? = some r := by
  have h : (load_existing_data (save_recipe_locally r s)).1 = s.dataFile.getD [] ++ [r] := by
    cases hd : s.dataFile <;> simp [save_recipe_locally, load_existing_data, hd]
  exact ⟨h, by rw [h]; exact List.getLast?_concat _⟩

/-! ## Validator lemmas -/

/-- The guard `not field or len(field.strip()) < k` is equivalent to
`trimmedLen field < k` whenever `0 < k`. -/
theorem validate_cond (o : Option String) (k : Nat) (hk : 0 < k) :
    (pyFalsy o || decide ((pyStrip (o.getD "")).length < k)) =
      decide (trimmedLen o < k) := by
  cases o with
  | none =>
    have h0 : trimmedLen none = 0 := rfl
    rw [h0]
    simp [pyFalsy, hk]
  | some s =>
    by_cases hs : s = ""
    · subst hs
      have h0 : trimmedLen (some "") = 0 := rfl
      have h1 : pyFalsy (some "") = true := rfl
      rw [h0, h1]
      simp [hk]
    · have h1 : pyFalsy (some s) = false := beq_eq_false_iff_ne.mpr hs
      have h0 : trimmedLen (some s) = (pyStrip s).length := rfl
      rw [h0, h1, Bool.false_or]
      rfl

/-- C2: the validator reports each of the three rules independently, a
violation for a field exactly when its trimmed length (absent treated as
0) is below the field's threshold, and returns the empty list exactly
when all three rules pass. -/
theorem C2_validate_rules (name ingredients instructions : Option String) :
    validate_recipe_data name ingredients instructions =
      (if trimmedLen name < 3 then [nameError] else []) ++
      (if trimmedLen ingredients < 10 then [ingredientsError] else []) ++
      (if trimmedLen instructions < 20 then [instructionsError] else []) ∧
    (nameError ∈ validate_recipe_data name ingredients instructions ↔
      trimmedLen name < 3) ∧
    (ingredientsError ∈ validate_recipe_data name ingredients instructions ↔
      trimmedLen ingredients < 10) ∧
    (instructionsError ∈ validate_recipe_data name ingredients instructions ↔
      trimmedLen instructions < 20) ∧
    (validate_recipe_data name ingredients instructions = [] ↔
      ¬ trimmedLen name < 3 ∧ ¬ trimmedLen ingredients < 10 ∧
        ¬ trimmedLen instructions < 20) := by
  have he : validate_recipe_data name ingredients instructions =
      (if trimmedLen name < 3 then [nameError] else []) ++
      (if trimmedLen ingredients < 10 then [ingredientsError] else []) ++
      (if trimmedLen instructions < 20 then [instructionsError] else []) := by
    unfold validate_recipe_data
    rw [validate_cond name 3 (by norm_num), validate_cond ingredients 10 (by norm_num),
      validate_cond instructions 20 (by norm_num)]
    simp only [decide_eq_true_eq]
  have d12 : nameError ≠ ingredientsError := by decide
  have d13 : nameError ≠ instructionsError := by decide
  have d23 : ingredientsError ≠ instructionsError := by decide
  refine ⟨he, ?_, ?_, ?_, ?_⟩ <;> rw [he] <;>
    by_cases h1 : trimmedLen name < 3 <;>
    by_cases h2 : trimmedLen ingredients < 10 <;>
    by_cases h3 : trimmedLen instructions < 20 <;>
    simp [h1, h2, h3, d12, d13, d23, d12.symm, d13.symm, d23.symm]

/-! ## Uploader lemmas -/

/-- When every attempt succeeds, the runner performs all planned calls. -/
theorem runTransfers_success (outcome : Nat → Option String)
    (h : ∀ k, outcome k = none) :
    ∀ (l : List Transmission) (k : Nat), runTransfers outcome l k = (l, none) := by
  intro l
  induction l with
  | nil => intro k; rfl
  | cons t ts ih => intro k; simp [runTransfers, h k, ih (k + 1)]

/-- When the first failure is at relative position `m`, the runner attempts
exactly the first `m + 1` calls and reports that failure. -/
theorem runTransfers_fail (outcome : Nat → Option String) (e : String) :
    ∀ (l : List Transmission) (k0 m : Nat), m < l.length →
      (∀ j, j < m → outcome (k0 + j) = none) → outcome (k0 + m) = some e →
      runTransfers outcome l k0 = (l.take (m + 1), some e) := by
  intro l
  induction l with
  | nil => intro k0 m hm _ _; simp at hm
  | cons t ts ih =>
    intro k0 m hm hpre hf
    cases m with
    | zero =>
      have h0 : outcome k0 = some e := by simpa using hf
      simp [runTransfers, h0]
    | succ m' =>
      have h0 : outcome k0 = none := by simpa using hpre 0 (Nat.succ_pos m')
      have hrec := ih (k0 + 1) m' (by simpa using hm)
        (fun j hj => by
          have h' := hpre (j + 1) (by omega)
          have heq : k0 + 1 + j = k0 + (j + 1) := by omega
          rw [heq]; exact h')
        (by
          have heq : k0 + 1 + m' = k0 + (m' + 1) := by omega
          rw [heq]; exact hf)
      simp [runTransfers, h0, hrec]

/-- C5: with a valid credential but no backing dataset file, the upload
fails with the "no data" message and attempts no transmission (and leaves
the environment untouched). -/
theorem C5_upload_no_data (repo_id token : String) (include_images : Bool)
    (w : UploadWorld) (_hvalid : w.auth token = none) (hempty : w.dataFile = none) :
    upload_to_huggingface repo_id token include_images w =
      ((false, "No local dataset found."), [], w) := by
  unfold upload_to_huggingface
  rw [hempty]
  rfl

/-- C5 witness: a concrete world with no dataset file. -/
theorem C5_upload_no_data_witness :
    upload_to_huggingface "user/indic-recipes" "hf_token" true
        ⟨none, true, [], fun _ => none, fun _ => none⟩ =
      ((false, "No local dataset found."), [],
        ⟨none, true, [], fun _ => none, fun _ => none⟩) :=
  C5_upload_no_data "user/indic-recipes" "hf_token" true
    ⟨none, true, [], fun _ => none, fun _ => none⟩ rfl rfl

/-- C6: when client authentication fails, the upload fails carrying the
authentication error and attempts no transmission at all. -/
theorem C6_upload_auth_failure (repo_id token : String) (include_images : Bool)
    (w : UploadWorld) (rows : List RecipeRecord) (e : String)
    (hd : w.dataFile = some rows) (ha : w.auth token = some e) :
    upload_to_huggingface repo_id token include_images w =
      ((false, "Login failed: " ++ e), [], w) := by
  unfold upload_to_huggingface
  rw [hd, ha]
  rfl

/-- C6 witness: a concrete world whose credential is rejected. -/
theorem C6_upload_auth_failure_witness :
    upload_to_huggingface "user/indic-recipes" "bad_token" true
        ⟨some [], true, [], fun _ => some "Invalid user token.", fun _ => none⟩ =
      ((false, "Login failed: " ++ "Invalid user token."), [],
        ⟨some [], true, [], fun _ => some "Invalid user token.", fun _ => none⟩) :=
  C6_upload_auth_failure "user/indic-recipes" "bad_token" true
    ⟨some [], true, [], fun _ => some "Invalid user token.", fun _ => none⟩
    [] "Invalid user token." rfl rfl

/-- C7: when the preconditions hold and every transmission succeeds, the
upload with `include_images = false` transmits exactly the dataset file,
and with `include_images = true` (image directory present) transmits the
dataset file followed by every image file under the `images/` prefix with
its filename preserved — `1 + N` files in total. -/
theorem C7_transmission_counts (repo_id token : String) (w : UploadWorld)
    (rows : List RecipeRecord)
    (hd : w.dataFile = some rows) (ha : w.auth token = none)
    (hs : ∀ k, w.sendOutcome k = none) :
    (upload_to_huggingface repo_id token false w).1.1 = true ∧
    (upload_to_huggingface repo_id token false w).2.1 =
      [⟨DATA_FILE, "recipes.csv", repo_id⟩] ∧
    (w.imagesDirExists = true →
      (upload_to_huggingface repo_id token true w).1.1 = true ∧
      (upload_to_huggingface repo_id token true w).2.1 =
        ⟨DATA_FILE, "recipes.csv", repo_id⟩ ::
          w.imageFiles.map (fun n =>
            ⟨IMAGES_DIR ++ "/" ++ n, "images/" ++ n, repo_id⟩) ∧
      (upload_to_huggingface repo_id token true w).2.1.length =
        1 + w.imageFiles.length) := by
  have hrun : ∀ b, upload_to_huggingface repo_id token b w =
      ((true, "Dataset uploaded successfully to: https://huggingface.co/datasets/"
          ++ repo_id), plannedTransfers repo_id b w, w) := by
    intro b
    simp [upload_to_huggingface, hd, ha, runTransfers_success w.sendOutcome hs]
  have hplanF : plannedTransfers repo_id false w =
      [⟨DATA_FILE, "recipes.csv", repo_id⟩] := by
    simp [plannedTransfers]
  refine ⟨by rw [hrun], by rw [hrun, hplanF], fun hdir => ?_⟩
  have hplanT : plannedTransfers repo_id true w =
      ⟨DATA_FILE, "recipes.csv", repo_id⟩ ::
        w.imageFiles.map (fun n =>
          ⟨IMAGES_DIR ++ "/" ++ n, "images/" ++ n, repo_id⟩) := by
    cases himg : w.imageFiles with
    | nil => simp [plannedTransfers, hdir, himg]
    | cons a l => simp [plannedTransfers, hdir, himg]
  refine ⟨by rw [hrun], by rw [hrun, hplanT], ?_⟩
  rw [hrun, hplanT]
  simp [Nat.add_comm]

/-- C7 witness: a concrete world with one image file. -/
theorem C7_transmission_counts_witness :
    (upload_to_huggingface "user/indic-recipes" "hf_token" false
        ⟨some [], true, ["Dosa_5289df73.png"], fun _ => none, fun _ => none⟩).2.1 =
      [⟨DATA_FILE, "recipes.csv", "user/indic-recipes"⟩] ∧
    (upload_to_huggingface "user/indic-recipes" "hf_token" true
        ⟨some [], true, ["Dosa_5289df73.png"], fun _ => none, fun _ => none⟩).2.1.length =
      1 + 1 := by
  have h := C7_transmission_counts "user/indic-recipes" "hf_token"
    ⟨some [], true, ["Dosa_5289df73.png"], fun _ => none, fun _ => none⟩
    [] rfl rfl (fun _ => rfl)
  exact ⟨h.2.1, by simpa using (h.2.2 rfl).2.2⟩

/-- C8: when preconditions hold and the first transmission failure occurs
at attempt `k`, the whole upload fails with a message carrying the
underlying error text, exactly the first `k + 1` planned calls were
attempted (none after the failing one), and the local environment is
unchanged. -/
theorem C8_first_failure_aborts (repo_id token : String) (include_images : Bool)
    (w : UploadWorld) (rows : List RecipeRecord) (e : String) (k : Nat)
    (hd : w.dataFile = some rows) (ha : w.auth token = none)
    (hk : k < (plannedTransfers repo_id include_images w).length)
    (hpre : ∀ j, j < k → w.sendOutcome j = none) (hf : w.sendOutcome k = some e) :
    (upload_to_huggingface repo_id token include_images w).1 =
      (false, "Upload failed: " ++ e) ∧
    (upload_to_huggingface repo_id token include_images w).2.1 =
      (plannedTransfers repo_id include_images w).take (k + 1) ∧
    (upload_to_huggingface repo_id token include_images w).2.2 = w := by
  have hrun := runTransfers_fail w.sendOutcome e
    (plannedTransfers repo_id include_images w) 0 k hk
    (fun j hj => by simpa using hpre j hj) (by simpa using hf)
  simp [upload_to_huggingface, hd, ha, hrun]

/-- C8 witness: a concrete world whose very first transmission fails. -/
theorem C8_first_failure_aborts_witness :
    (upload_to_huggingface "user/indic-recipes" "hf_token" false
        ⟨some [], true, [], fun _ => none,
          fun k => if k == 0 then some "network down" else none⟩).1 =
      (false, "Upload failed: " ++ "network down") ∧
    (upload_to_huggingface "user/indic-recipes" "hf_token" false
        ⟨some [], true, [], fun _ => none,
          fun k => if k == 0 then some "network down" else none⟩).2.1 =
      (plannedTransfers "user/indic-recipes" false
        ⟨some [], true, [], fun _ => none,
          fun k => if k == 0 then some "network down" else none⟩).take (0 + 1) ∧
    (upload_to_huggingface "user/indic-recipes" "hf_token" false
        ⟨some [], true, [], fun _ => none,
          fun k => if k == 0 then some "network down" else none⟩).2.2 =
      ⟨some [], true, [], fun _ => none,
        fun k => if k == 0 then some "network down" else none⟩ :=
  C8_first_failure_aborts "user/indic-recipes" "hf_token" false
    ⟨some [], true, [], fun _ => none,
      fun k => if k == 0 then some "network down" else none⟩
    [] "network down" 0 rfl rfl (by decide)
    (fun j hj => absurd hj (Nat.not_lt_zero j)) rfl

/-! ## Image store lemmas -/

/-- Lowercase hexadecimal characters. -/
def isLowerHex (c : Char) : Bool :=
  (('0' ≤ c && c ≤ '9') || ('a' ≤ c && c ≤ 'f'))

/-- `hexDigit` yields a hex character on digits below 16. -/
theorem hexDigit_isLowerHex : ∀ n < 16, isLowerHex (hexDigit n) = true := by decide

/-- Every byte emitted by `leBytes` is below 256. -/
theorem leBytes_lt (x : Nat) : ∀ b ∈ leBytes x, b < 256 := by
  intro b hb
  rcases hb with _ | ⟨_, _ | ⟨_, _ | ⟨_, _ | ⟨_, h⟩⟩⟩⟩ <;>
    first
      | exact Nat.lt_succ_of_le Nat.and_le_right
      | cases h

/-- The MD5 digest always has 16 bytes. -/
theorem md5bytes_length (msg : List Nat) : (md5bytes msg).length = 16 := rfl

/-- Every MD5 digest byte is below 256. -/
theorem md5bytes_lt (msg : List Nat) : ∀ b ∈ md5bytes msg, b < 256 := by
  intro b hb
  unfold md5bytes at hb
  rcases List.mem_append.1 hb with hb' | hb'
  · rcases List.mem_append.1 hb' with hb'' | hb''
    · rcases List.mem_append.1 hb'' with h | h <;> exact leBytes_lt _ b h
    · exact leBytes_lt _ b hb''
  · exact leBytes_lt _ b hb'

/-- `bytesToHex` emits two characters per byte. -/
theorem bytesToHex_length (l : List Nat) : (bytesToHex l).length = 2 * l.length := by
  induction l with
  | nil => rfl
  | cons b bs ih => simp [bytesToHex, ih]; omega

/-- `bytesToHex` emits only hex characters when its input is bytes. -/
theorem bytesToHex_hex (l : List Nat) (hl : ∀ b ∈ l, b < 256) :
    ∀ c ∈ bytesToHex l, isLowerHex c = true := by
  induction l with
  | nil => intro c hc; cases hc
  | cons b bs ih =>
    intro c hc
    have hb : b < 256 := hl b (List.mem_cons_self b bs)
    rcases hc with _ | ⟨_, _ | ⟨_, hc'⟩⟩
    · exact hexDigit_isLowerHex (b / 16) (Nat.div_lt_of_lt_mul (by omega))
    · exact hexDigit_isLowerHex (b % 16) (Nat.mod_lt b (by norm_num))
    · exact ih (fun x hx => hl x (List.mem_cons_of_mem b hx)) c hc'

/-- The full hex digest has 32 characters. -/
theorem md5hexChars_length (msg : List Nat) : (md5hexChars msg).length = 32 := by
  rw [md5hexChars, bytesToHex_length, md5bytes_length]

/-- The truncated digest used in filenames has exactly 8 characters. -/
theorem fileHash8_length (bytes : List Nat) : (fileHash8 bytes).length = 8 := by
  show ((md5hexChars bytes).take 8).length = 8
  rw [List.length_take, md5hexChars_length]
  rfl

/-- The truncated digest consists of hex characters only. -/
theorem fileHash8_hex (bytes : List Nat) :
    ∀ c ∈ (fileHash8 bytes).data, isLowerHex c = true := by
  intro c hc
  have hc' : c ∈ md5hexChars bytes := List.mem_of_mem_take hc
  exact bytesToHex_hex (md5bytes bytes) (md5bytes_lt bytes) c hc'

/-- C3: `save_image` produces exactly
`sanitized_name ++ "_" ++ digest ++ "." ++ original_extension`, where the
digest is 8 lowercase hex characters of the MD5 content hash; the result
is a pure function of the byte content, the original filename and the
display name, so identical inputs yield the identical filename. -/
theorem C3_image_filename (f : UploadedFile) (n : String) :
    save_image (some f) n =
      some (safeName n ++ "_" ++ fileHash8 f.content ++ "." ++
        fileExtension f.name) ∧
    (fileHash8 f.content).length = 8 ∧
    (∀ c ∈ (fileHash8 f.content).data, isLowerHex c = true) ∧
    (∀ (g : UploadedFile) (m : String), g.content = f.content →
      g.name = f.name → m = n → save_image (some g) m = save_image (some f) n) := by
  refine ⟨rfl, fileHash8_length f.content, fileHash8_hex f.content, ?_⟩
  intro g m h1 h2 h3
  obtain ⟨gc, gn⟩ := g
  obtain ⟨fc, fn⟩ := f
  simp only at h1 h2
  subst h1; subst h2; subst h3
  rfl

/-- C3 witness: concrete inputs for the determinism conjunct. -/
theorem C3_image_filename_witness :
    save_image (some ⟨[1, 2, 3], "dish.png"⟩) "Dal Fry" =
      some (safeName "Dal Fry" ++ "_" ++ fileHash8 [1, 2, 3] ++ "." ++
        fileExtension "dish.png") ∧
    save_image (some ⟨[1, 2, 3], "dish.png"⟩) "Dal Fry" =
      save_image (some ⟨[1, 2, 3], "dish.png"⟩) "Dal Fry" :=
  ⟨(C3_image_filename ⟨[1, 2, 3], "dish.png"⟩ "Dal Fry").1,
   (C3_image_filename ⟨[1, 2, 3], "dish.png"⟩ "Dal Fry").2.2.2
     ⟨[1, 2, 3], "dish.png"⟩ "Dal Fry" rfl rfl rfl⟩

/-- Characters surviving `pyStripList` come from the input. -/
theorem mem_pyStripList (c : Char) (cs : List Char) (h : c ∈ pyStripList cs) :
    c ∈ cs := by
  unfold pyStripList at h
  rw [List.mem_reverse] at h
  have h1 : c ∈ (cs.dropWhile Char.isWhitespace).reverse :=
    (List.dropWhile_sublist Char.isWhitespace).subset h
  rw [List.mem_reverse] at h1
  exact (List.dropWhile_sublist Char.isWhitespace).subset h1

/-- Characters that are alphanumeric, a hyphen or an underscore are none
of the filesystem-significant characters. -/
theorem keptChar_fs_safe (c : Char) (h : c.isAlphanum = true ∨ c = '-' ∨ c = '_') :
    c ≠ '/' ∧ c ≠ '\\' ∧ c ≠ '.' ∧ c ≠ ' ' := by
  rcases h with h | rfl | rfl
  · refine ⟨?_, ?_, ?_, ?_⟩ <;> rintro rfl <;> exact absurd h (by decide)
  · decide
  · decide

/-- C10: every character of the sanitized name fragment is alphanumeric, a
hyphen or an underscore; in particular it is never a path separator, a
dot, or a space, so this fragment cannot redirect the image write outside
the image directory. -/
theorem C10_safe_name_charset (n : String) (c : Char)
    (hc : c ∈ (safeName n).data) :
    (c.isAlphanum = true ∨ c = '-' ∨ c = '_') ∧
    c ≠ '/' ∧ c ≠ '\\' ∧ c ≠ '.' ∧ c ≠ ' ' := by
  have hc' : c ∈ pyReplaceSpace (pyStripList (n.data.filter pyIsKeptChar)) := hc
  obtain ⟨c', hc'', rfl⟩ := List.mem_map.1 hc'
  have hmem : c' ∈ n.data.filter pyIsKeptChar := mem_pyStripList c' _ hc''
  have hkept : pyIsKeptChar c' = true := (List.mem_filter.1 hmem).2
  by_cases hsp : c' = ' '
  · subst hsp
    refine ⟨?_, ?_⟩ <;> decide
  · have hne : (c' == ' ') = false := beq_eq_false_iff_ne.mpr hsp
    rw [if_neg (by simp [hne])]
    have hdisj : c'.isAlphanum = true ∨ c' = '-' ∨ c' = '_' := by
      have := hkept
      unfold pyIsKeptChar at this
      rcases Bool.or_eq_true_iff.1 this with h | h
      · rcases Bool.or_eq_true_iff.1 h with h' | h'
        · rcases Bool.or_eq_true_iff.1 h' with h'' | h''
          · exact Or.inl h''
          · exact absurd (beq_iff_eq.1 h'') hsp
        · exact Or.inr (Or.inl (beq_iff_eq.1 h'))
      · exact Or.inr (Or.inr (beq_iff_eq.1 h))
    exact ⟨hdisj, keptChar_fs_safe c' hdisj⟩

/-- C10 witness: a display name full of special characters. -/
theorem C10_safe_name_charset_witness :
    'D' ∈ (safeName "  ../D*?  ").data ∧
    (('D'.isAlphanum = true ∨ 'D' = '-' ∨ 'D' = '_') ∧
      'D' ≠ '/' ∧ 'D' ≠ '\\' ∧ 'D' ≠ '.' ∧ 'D' ≠ ' ') :=
  ⟨by decide, C10_safe_name_charset "  ../D*?  " 'D' (by decide)⟩

/-! ## C4: filename distinctness -/

/-- C4 counterexample: two different display names whose sanitized forms
coincide produce the identical filename for identical bytes, refuting the
claim that different names always yield distinct filenames. -/
theorem C4_counterexample :
    ¬ ("Dal!" = "Dal#") ∧
    save_image (some ⟨[1, 2, 3], "p.png"⟩) "Dal!" =
      save_image (some ⟨[1, 2, 3], "p.png"⟩) "Dal#" := by
  refine ⟨by decide, ?_⟩
  show some (imageFilename ⟨[1, 2, 3], "p.png"⟩ "Dal!") =
    some (imageFilename ⟨[1, 2, 3], "p.png"⟩ "Dal#")
  unfold imageFilename
  have h : safeName "Dal!" = safeName "Dal#" := by decide
  rw [h]

/-- Splitting at a marker character absent from the leading fragments is
unambiguous. -/
theorem dot_split_inj : ∀ (a₁ a₂ b₁ b₂ : List Char),
    (∀ c ∈ a₁, c ≠ '.') → (∀ c ∈ a₂, c ≠ '.') →
    a₁ ++ '.' :: b₁ = a₂ ++ '.' :: b₂ → a₁ = a₂ ∧ b₁ = b₂ := by
  intro a₁
  induction a₁ with
  | nil =>
    intro a₂ b₁ b₂ _ h₂ heq
    cases a₂ with
    | nil => simpa using heq
    | cons x t =>
      simp only [List.nil_append, List.cons_append, List.cons.injEq] at heq
      exact absurd heq.1.symm (h₂ x (List.mem_cons_self x t))
  | cons c t ih =>
    intro a₂ b₁ b₂ h₁ h₂ heq
    cases a₂ with
    | nil =>
      simp only [List.nil_append, List.cons_append, List.cons.injEq] at heq
      exact absurd heq.1 (h₁ c (List.mem_cons_self c t))
    | cons x t₂ =>
      simp only [List.cons_append, List.cons.injEq] at heq
      obtain ⟨rfl, htail⟩ := heq
      obtain ⟨h, h'⟩ := ih t₂ b₁ b₂
        (fun d hd => h₁ d (List.mem_cons_of_mem _ hd))
        (fun d hd => h₂ d (List.mem_cons_of_mem _ hd)) htail
      exact ⟨by rw [h], h'⟩

/-- `splitDotAux` never returns the empty list. -/
theorem splitDotAux_ne_nil : ∀ (cs acc : List Char), splitDotAux acc cs ≠ [] := by
  intro cs
  induction cs with
  | nil => intro acc; simp [splitDotAux]
  | cons c rest ih =>
    intro acc
    cases hc : (c == '.') <;> simp [splitDotAux, hc, ih]

/-- `getLastD` ignores its default on nonempty lists. -/
theorem getLastD_irrel {α : Type} (l : List α) (d₁ d₂ : α) (h : l ≠ []) :
    l.getLastD d₁ = l.getLastD d₂ := by
  cases l with
  | nil => exact absurd rfl h
  | cons a t => rw [List.getLastD_cons, List.getLastD_cons]

/-- The last fragment produced by `splitDotAux` contains no dot. -/
theorem splitLast_no_dot : ∀ (cs acc : List Char), (∀ c ∈ acc, c ≠ '.') →
    ∀ c ∈ (splitDotAux acc cs).getLastD [], c ≠ '.' := by
  intro cs
  induction cs with
  | nil =>
    intro acc hacc c hc
    simp only [splitDotAux, List.getLastD_cons, List.getLastD_nil] at hc
    exact hacc c (List.mem_reverse.1 hc)
  | cons x rest ih =>
    intro acc hacc c hc
    cases hx : (x == '.') with
    | true =>
      rw [show splitDotAux acc (x :: rest) =
          acc.reverse :: splitDotAux [] rest by simp [splitDotAux, hx],
        List.getLastD_cons,
        getLastD_irrel _ _ [] (splitDotAux_ne_nil rest [])] at hc
      exact ih [] (by simp) c hc
    | false =>
      rw [show splitDotAux acc (x :: rest) = splitDotAux (x :: acc) rest by
        simp [splitDotAux, hx]] at hc
      refine ih (x :: acc) ?_ c hc
      intro d hd
      rcases List.mem_cons.1 hd with rfl | hd
      · exact beq_eq_false_iff_ne.mp hx
      · exact hacc d hd

/-- The extracted extension contains no dot. -/
theorem fileExtension_no_dot (s : String) :
    ∀ c ∈ (fileExtension s).data, c ≠ '.' := by
  intro c hc
  exact splitLast_no_dot s.data [] (by simp) c hc

/-- The three fragments of an image filename can be recovered from it:
with an 8-character digest and a dot-free extension the concatenation is
injective in `(sanitized name, digest, extension)`. -/
theorem filename_fragments_inj (sn₁ d₁ e₁ sn₂ d₂ e₂ : List Char)
    (hd₁ : d₁.length = 8) (hd₂ : d₂.length = 8)
    (he₁ : ∀ c ∈ e₁, c ≠ '.') (he₂ : ∀ c ∈ e₂, c ≠ '.')
    (h : sn₁ ++ '_' :: (d₁ ++ '.' :: e₁) = sn₂ ++ '_' :: (d₂ ++ '.' :: e₂)) :
    sn₁ = sn₂ ∧ d₁ = d₂ ∧ e₁ = e₂ := by
  have hrev := congrArg List.reverse h
  simp only [List.reverse_append, List.reverse_cons, List.append_assoc,
    List.singleton_append, List.cons_append, List.nil_append] at hrev
  obtain ⟨he, htail⟩ := dot_split_inj e₁.reverse e₂.reverse _ _
    (fun c hcmem => he₁ c (List.mem_reverse.1 hcmem))
    (fun c hcmem => he₂ c (List.mem_reverse.1 hcmem)) hrev
  obtain ⟨hdrev, hrest⟩ := List.append_inj htail
    (by rw [List.length_reverse, List.length_reverse, hd₁, hd₂])
  refine ⟨?_, ?_, ?_⟩
  · have h2 : sn₁.reverse = sn₂.reverse := by
      have h' := hrest
      rw [List.cons.injEq] at h'
      exact h'.2
    exact List.reverse_inj.1 h2
  · exact List.reverse_inj.1 hdrev
  · exact List.reverse_inj.1 he

/-- C4 amended: two `save_image` calls produce distinct filenames whenever
their truncated content digests differ, their sanitized display names
differ, or their original extensions differ; merely differing raw display
names (or byte contents with colliding truncated digests) need not
produce distinct filenames. -/
theorem C4_distinct_components (f g : UploadedFile) (n m : String)
    (h : fileHash8 f.content ≠ fileHash8 g.content ∨ safeName n ≠ safeName m ∨
      fileExtension f.name ≠ fileExtension g.name) :
    save_image (some f) n ≠ save_image (some g) m := by
  intro heq
  have heq' : imageFilename f n = imageFilename g m := by
    have := heq
    simp only [save_image, Option.some.injEq] at this
    exact this
  have hdata : (safeName n).data ++ '_' ::
      ((fileHash8 f.content).data ++ '.' :: (fileExtension f.name).data) =
      (safeName m).data ++ '_' ::
      ((fileHash8 g.content).data ++ '.' :: (fileExtension g.name).data) := by
    have hd := congrArg String.data heq'
    simp only [imageFilename, String.data_append, List.append_assoc] at hd
    simpa using hd
  obtain ⟨hsn, hdg, hext⟩ := filename_fragments_inj _ _ _ _ _ _
    (fileHash8_length f.content) (fileHash8_length g.content)
    (fileExtension_no_dot f.name) (fileExtension_no_dot g.name) hdata
  rcases h with h | h | h
  · exact h (String.ext hdg)
  · exact h (String.ext hsn)
  · exact h (String.ext hext)

/-- C4 amended witness: names with distinct sanitized forms. -/
theorem C4_distinct_components_witness :
    safeName "Biryani" ≠ safeName "Dosa" ∧
    save_image (some ⟨[1, 2, 3], "p.png"⟩) "Biryani" ≠
      save_image (some ⟨[1, 2, 3], "p.png"⟩) "Dosa" :=
  ⟨by decide,
   C4_distinct_components ⟨[1, 2, 3], "p.png"⟩ ⟨[1, 2, 3], "p.png"⟩
     "Biryani" "Dosa" (Or.inr (Or.inl (by decide)))⟩

end RecipeApp
